import Mathlib

/-!
Verification of `drivers/syslog/syslog_filechannel.c` (NuttX file-backed
SYSLOG channel).

The file system is modelled as an association list from paths to file
contents (byte lists); the POSIX calls used by the code (`open`/`fstat`,
`access`, `remove`, `rename`) become lookups and updates on that list.
`log_rotate` is a function on that file-system state; `syslog_file_channel`
is modelled as a state transformer over the global channel pointer and the
file system, additionally emitting a trace of the externally visible events
(scheduler lock/unlock, device initialize/uninitialize, channel binding,
writes to the global pointer) so that ordering and locking claims can be
stated.
-/

namespace SyslogFileChannel

/-- File contents: a list of bytes. -/
abbrev Contents := List Nat

/-- The file system: an association list from path to contents.
The first entry with a given path is the file at that path. -/
abbrev Fs := List (String × Contents)

/-- Look up the contents of the file at path `p`; `none` means the file
does not exist (so `open(p, O_RDONLY)` fails). -/
def fsLookup : Fs → String → Option Contents
  | [], _ => none
  | (q, c) :: rest, p => if q = p then some c else fsLookup rest p

/-- `remove(p)`: delete every entry at path `p`. -/
def fsRemove (fs : Fs) (p : String) : Fs :=
  fs.filter (fun e => decide (e.1 ≠ p))

/-- Create or overwrite the file at path `p` with contents `c`. -/
def fsSet (fs : Fs) (p : String) (c : Contents) : Fs :=
  (p, c) :: fsRemove fs p

/-- `rename(src, dst)`: if `src` exists, move its contents to `dst`
(overwriting `dst`); if `src` does not exist the call fails and the file
system is unchanged. -/
def fsRename (fs : Fs) (src dst : String) : Fs :=
  match fsLookup fs src with
  | none => fs
  | some c => fsRemove (fsSet fs dst c) src

/-- Shallow embedding of `log_rotate` (syslog_filechannel.c lines 62-110).

`limit` is `CONFIG_SYSLOG_FILE_SIZE_LIMIT`; `mallocOk` tells whether the
`malloc` of the backup-name buffer succeeds.  The code:
opens the file read-only (failure: return), reads its size with `fstat`,
returns if the size is strictly below the limit, allocates the backup
name (failure: return), builds `"<log_file>.0"` with `sprintf`, removes a
pre-existing backup if `access(backup, F_OK) == 0`, and renames the log
file to the backup name. -/
def log_rotate (limit : Nat) (mallocOk : Bool) (log_file : String) (fs : Fs) : Fs :=
  match fsLookup fs log_file with
  | none => fs
  | some contents =>
    if contents.length < limit then
      fs
    else if mallocOk = false then
      fs
    else
      let backup_file := log_file ++ ".0"
      let fs1 := if (fsLookup fs backup_file).isSome then fsRemove fs backup_file else fs
      fsRename fs1 log_file backup_file

/-! Basic lookup/update lemmas for the file-system model. -/

theorem fsLookup_fsRemove_self (fs : Fs) (p : String) :
    fsLookup (fsRemove fs p) p = none := by
  induction fs with
  | nil => rfl
  | cons e rest ih =>
    unfold fsRemove at *
    by_cases he : e.1 = p
    · rw [List.filter_cons_of_neg (by simp [he])]
      exact ih
    · rw [List.filter_cons_of_pos (by simp [he])]
      simp only [fsLookup, he, if_false]
      exact ih

theorem fsLookup_fsRemove_ne (fs : Fs) (p q : String) (h : q ≠ p) :
    fsLookup (fsRemove fs p) q = fsLookup fs q := by
  induction fs with
  | nil => rfl
  | cons e rest ih =>
    unfold fsRemove at *
    by_cases he : e.1 = p
    · rw [List.filter_cons_of_neg (by simp [he])]
      have : e.1 ≠ q := by rw [he]; exact fun hc => h hc.symm
      simp only [fsLookup, this, if_false] at *
      exact ih
    · rw [List.filter_cons_of_pos (by simp [he])]
      by_cases heq : e.1 = q
      · simp only [fsLookup, heq, if_true]
      · simp only [fsLookup, heq, if_false]
        exact ih

theorem fsLookup_fsSet_self (fs : Fs) (p : String) (c : Contents) :
    fsLookup (fsSet fs p c) p = some c := by
  simp [fsSet, fsLookup]

theorem fsLookup_fsSet_ne (fs : Fs) (p q : String) (c : Contents) (h : q ≠ p) :
    fsLookup (fsSet fs p c) q = fsLookup fs q := by
  simp only [fsSet, fsLookup]
  rw [if_neg (fun hc => h hc.symm)]
  exact fsLookup_fsRemove_ne fs p q h

theorem append_dot_zero_ne (p : String) : p ≠ p ++ ".0" := by
  intro h
  have hlen : p.length = (p ++ ".0").length := congrArg String.length h
  rw [String.length_append] at hlen
  have h2 : (".0" : String).length = 2 := rfl
  rw [h2] at hlen
  omega

/-! ### The channel-configuration entry point -/

/-- POSIX open flags used by the file.  Bitwise-or of distinct flag bits is
modelled as a list of flag names (a set). -/
inductive OpenFlag
  | o_rdonly
  | o_wronly
  | o_creat
  | o_append
  | o_trunc
deriving DecidableEq

/-- `OPEN_FLAGS` (line 46): `O_WRONLY | O_CREAT | O_APPEND`. -/
def OPEN_FLAGS : List OpenFlag := [.o_wronly, .o_creat, .o_append]

/-- POSIX permission-mode bits, modelled as named bits. -/
inductive ModeBit
  | s_irusr
  | s_iwusr
  | s_irgrp
  | s_iwgrp
  | s_iroth
  | s_iwoth
deriving DecidableEq

/-- `OPEN_MODE` (line 47): `S_IROTH | S_IRGRP | S_IRUSR | S_IWUSR`. -/
def OPEN_MODE : List ModeBit := [.s_iroth, .s_irgrp, .s_irusr, .s_iwusr]

/-- A channel handle (a non-null `struct syslog_channel_s *`). -/
abbrev Handle := Nat

/-- Externally visible events emitted by `syslog_file_channel`, in program
order, used to state ordering and locking claims. -/
inductive Event
  | schedLock
  | schedUnlock
  | devUninitCall (h : Handle)
  | devInitCall (path : String) (oflags : List OpenFlag) (mode : List ModeBit)
  | channelBind (h : Handle)
  | writeChannel (v : Option Handle)
deriving DecidableEq

/-- Behaviour of the external collaborators for one call:
whether `CONFIG_SYSLOG_FILE_ROTATE` is compiled in, the configured
`CONFIG_SYSLOG_FILE_SIZE_LIMIT`, whether `malloc` succeeds inside
`log_rotate`, the handle returned by `syslog_dev_initialize`
(`none` = NULL), and whether `syslog_channel` returns `OK` on a handle. -/
structure Env where
  rotate_enabled : Bool
  limit : Nat
  mallocOk : Bool
  devInit : Option Handle
  bindOk : Handle → Bool

/-- The mutable state: the private global `g_syslog_file_channel`
(line 55) and the file system. -/
structure SysState where
  g_syslog_file_channel : Option Handle
  fs : Fs
deriving DecidableEq

/-- Shallow embedding of `syslog_file_channel` (lines 152-199).

The code: `sched_lock()`; if `g_syslog_file_channel != NULL`, call
`syslog_dev_uninitialize` on it; call `log_rotate(devpath)` when
`CONFIG_SYSLOG_FILE_ROTATE` is defined; assign
`g_syslog_file_channel = syslog_dev_initialize(devpath, OPEN_FLAGS,
OPEN_MODE)`; if that is NULL, goto `errout_with_lock`; call
`syslog_channel` on the handle, and if it does not return `OK`, call
`syslog_dev_uninitialize` on it and set `g_syslog_file_channel = NULL`;
at `errout_with_lock`: `sched_unlock()` and return
`g_syslog_file_channel`.

Returns the C return value, the final state, and the event trace. -/
def syslog_file_channel (env : Env) (devpath : String) (s : SysState) :
    Option Handle × SysState × List Event :=
  let tr0 : List Event :=
    match s.g_syslog_file_channel with
    | some h => [.schedLock, .devUninitCall h]
    | none => [.schedLock]
  let fs1 : Fs :=
    if env.rotate_enabled then log_rotate env.limit env.mallocOk devpath s.fs else s.fs
  let tr1 : List Event :=
    tr0 ++ [.devInitCall devpath OPEN_FLAGS OPEN_MODE, .writeChannel env.devInit]
  match env.devInit with
  | none =>
      (none, ⟨none, fs1⟩, tr1 ++ [.schedUnlock])
  | some h =>
      if env.bindOk h then
        (some h, ⟨some h, fs1⟩, tr1 ++ [.channelBind h, .schedUnlock])
      else
        (none, ⟨none, fs1⟩,
          tr1 ++ [.channelBind h, .devUninitCall h, .writeChannel none, .schedUnlock])

/-- Event `a` occurs at a strictly earlier position than event `b` in the
trace. -/
def occursBefore (tr : List Event) (a b : Event) : Prop :=
  ∃ i j, i < j ∧ tr.get? i = some a ∧ tr.get? j = some b

/-- `true` iff, starting from lock depth `d`, every `writeChannel` event in
the trace happens while the scheduler lock is held (depth > 0) and every
`schedUnlock` matches an earlier `schedLock`. -/
def lockDepthOk : Nat → List Event → Bool
  | _, [] => true
  | d, .schedLock :: rest => lockDepthOk (d + 1) rest
  | d, .schedUnlock :: rest => decide (0 < d) && lockDepthOk (d - 1) rest
  | d, .writeChannel _ :: rest => decide (0 < d) && lockDepthOk d rest
  | d, _ :: rest => lockDepthOk d rest

/-- `true` on `schedUnlock` only. -/
def isSchedUnlock : Event → Bool
  | .schedUnlock => true
  | _ => false

/-- `true` on `schedLock` only. -/
def isSchedLock : Event → Bool
  | .schedLock => true
  | _ => false

/-! ### Helper lemmas about `log_rotate` -/

theorem log_rotate_eq_rename (limit : Nat) (log_file : String) (fs : Fs)
    (c : Contents) (hfile : fsLookup fs log_file = some c)
    (hsize : limit ≤ c.length) :
    log_rotate limit true log_file fs =
      fsRename
        (if (fsLookup fs (log_file ++ ".0")).isSome then fsRemove fs (log_file ++ ".0") else fs)
        log_file (log_file ++ ".0") := by
  unfold log_rotate
  rw [hfile]
  simp only [if_neg (Nat.not_lt.mpr hsize)]
  simp

/-! ### Claim theorems for `log_rotate` -/

/-- C1: For every log file whose size is at or above the configured size
limit (and for which the backup-name allocation succeeds, the complementary
case being the subject of the claim on allocation failure), `log_rotate`
removes any pre-existing backup at the sibling name and renames the log
file to that backup name: afterwards the original path no longer exists,
the path with ".0" appended holds the file's prior contents, and any
previously existing backup at that name is discarded. -/
theorem log_rotate_rotates (limit : Nat) (log_file : String) (fs : Fs)
    (c : Contents) (hfile : fsLookup fs log_file = some c)
    (hsize : limit ≤ c.length) :
    fsLookup (log_rotate limit true log_file fs) log_file = none ∧
    fsLookup (log_rotate limit true log_file fs) (log_file ++ ".0") = some c := by
  have hne : log_file ≠ log_file ++ ".0" := append_dot_zero_ne log_file
  have hne' : log_file ++ ".0" ≠ log_file := fun h => hne h.symm
  rw [log_rotate_eq_rename limit log_file fs c hfile hsize]
  set fs1 := if (fsLookup fs (log_file ++ ".0")).isSome then fsRemove fs (log_file ++ ".0") else fs with hfs1
  have hlook1 : fsLookup fs1 log_file = some c := by
    rw [hfs1]
    by_cases hb : (fsLookup fs (log_file ++ ".0")).isSome
    · rw [if_pos hb, fsLookup_fsRemove_ne fs (log_file ++ ".0") log_file hne]
      exact hfile
    · rw [if_neg hb]
      exact hfile
  unfold fsRename
  rw [hlook1]
  constructor
  · exact fsLookup_fsRemove_self (fsSet fs1 (log_file ++ ".0") c) log_file
  · rw [fsLookup_fsRemove_ne (fsSet fs1 (log_file ++ ".0") c) log_file (log_file ++ ".0") hne']
    exact fsLookup_fsSet_self fs1 (log_file ++ ".0") c

/-- Witness for C1 at a concrete input. -/
theorem log_rotate_rotates_witness :
    fsLookup [("log", [0, 1, 2])] "log" = some [0, 1, 2] ∧
    3 ≤ ([0, 1, 2] : Contents).length ∧
    (fsLookup (log_rotate 3 true "log" [("log", [0, 1, 2])]) "log" = none ∧
     fsLookup (log_rotate 3 true "log" [("log", [0, 1, 2])]) ("log" ++ ".0") = some [0, 1, 2]) :=
  ⟨by decide, by decide,
   log_rotate_rotates 3 "log" [("log", [0, 1, 2])] [0, 1, 2] (by decide) (by decide)⟩

/-- C2: For every log file whose size is strictly below the configured
size limit, `log_rotate` performs no file-system modification: the entire
file system is unchanged, so the file stays at its original path with its
contents unchanged and no backup file is created, deleted, or
overwritten. -/
theorem log_rotate_below_limit (limit : Nat) (mallocOk : Bool) (log_file : String)
    (fs : Fs) (c : Contents) (hfile : fsLookup fs log_file = some c)
    (hsize : c.length < limit) :
    log_rotate limit mallocOk log_file fs = fs := by
  unfold log_rotate
  rw [hfile]
  simp [if_pos hsize]

/-- Witness for C2 at a concrete input. -/
theorem log_rotate_below_limit_witness :
    fsLookup [("log", [0])] "log" = some [0] ∧
    ([0] : Contents).length < 3 ∧
    log_rotate 3 true "log" [("log", [0])] = [("log", [0])] :=
  ⟨by decide, by decide,
   log_rotate_below_limit 3 true "log" [("log", [0])] [0] (by decide) (by decide)⟩

/-- C3: For every path on which opening the log file fails (the file is
absent, so `open(log_file, O_RDONLY)` returns a negative descriptor),
`log_rotate` returns without modifying the file system; `log_rotate`
returns `void` in the source, so no error is signalled to the caller. -/
theorem log_rotate_open_fails (limit : Nat) (mallocOk : Bool) (log_file : String)
    (fs : Fs) (hfile : fsLookup fs log_file = none) :
    log_rotate limit mallocOk log_file fs = fs := by
  unfold log_rotate
  rw [hfile]

/-- Witness for C3 at a concrete input. -/
theorem log_rotate_open_fails_witness :
    fsLookup [("other", [9])] "log" = none ∧
    log_rotate 3 true "log" [("other", [9])] = [("other", [9])] :=
  ⟨by decide, log_rotate_open_fails 3 true "log" [("other", [9])] (by decide)⟩

/-- C9: If the allocation of the backup-file-name buffer fails during
`log_rotate` (`malloc` returns NULL), rotation is silently skipped: the
function returns without modifying the file system, so an oversized log
file is left at its original path. -/
theorem log_rotate_malloc_fails (limit : Nat) (log_file : String) (fs : Fs)
    (c : Contents) (hfile : fsLookup fs log_file = some c)
    (hsize : limit ≤ c.length) :
    log_rotate limit false log_file fs = fs ∧
    fsLookup (log_rotate limit false log_file fs) log_file = some c := by
  have heq : log_rotate limit false log_file fs = fs := by
    unfold log_rotate
    rw [hfile]
    simp [if_neg (Nat.not_lt.mpr hsize)]
  exact ⟨heq, by rw [heq]; exact hfile⟩

/-- Witness for C9 at a concrete input. -/
theorem log_rotate_malloc_fails_witness :
    fsLookup [("log", [0, 1, 2])] "log" = some [0, 1, 2] ∧
    3 ≤ ([0, 1, 2] : Contents).length ∧
    (log_rotate 3 false "log" [("log", [0, 1, 2])] = [("log", [0, 1, 2])] ∧
     fsLookup (log_rotate 3 false "log" [("log", [0, 1, 2])]) "log" = some [0, 1, 2]) :=
  ⟨by decide, by decide,
   log_rotate_malloc_fails 3 "log" [("log", [0, 1, 2])] [0, 1, 2] (by decide) (by decide)⟩

/-! ### Claim theorems for `syslog_file_channel` -/

/-- C4: If `syslog_file_channel` is called while a prior file-backed
channel handle is recorded in `g_syslog_file_channel`, that prior handle
is passed to `syslog_dev_uninitialize` before the new channel handle is
created (the `syslog_dev_initialize` call) and before it is installed
(the write of `syslog_dev_initialize`'s result into the global). -/
theorem syslog_file_channel_uninit_prior (env : Env) (devpath : String)
    (s : SysState) (h0 : Handle)
    (hg : s.g_syslog_file_channel = some h0) :
    occursBefore (syslog_file_channel env devpath s).2.2
      (.devUninitCall h0) (.devInitCall devpath OPEN_FLAGS OPEN_MODE) ∧
    occursBefore (syslog_file_channel env devpath s).2.2
      (.devUninitCall h0) (.writeChannel env.devInit) := by
  cases hdev : env.devInit with
  | none =>
      simp only [syslog_file_channel, hdev, hg]
      exact ⟨⟨1, 2, by omega, rfl, rfl⟩, ⟨1, 3, by omega, rfl, rfl⟩⟩
  | some h =>
      cases hb : env.bindOk h <;>
        simp only [syslog_file_channel, hdev, hg, hb] <;>
        exact ⟨⟨1, 2, by omega, rfl, rfl⟩, ⟨1, 3, by omega, rfl, rfl⟩⟩

/-- Witness for C4 at a concrete input. -/
theorem syslog_file_channel_uninit_prior_witness :
    (⟨some 5, []⟩ : SysState).g_syslog_file_channel = some 5 ∧
    (occursBefore (syslog_file_channel ⟨true, 3, true, some 7, fun _ => true⟩ "log" ⟨some 5, []⟩).2.2
       (.devUninitCall 5) (.devInitCall "log" OPEN_FLAGS OPEN_MODE) ∧
     occursBefore (syslog_file_channel ⟨true, 3, true, some 7, fun _ => true⟩ "log" ⟨some 5, []⟩).2.2
       (.devUninitCall 5) (.writeChannel (Env.devInit ⟨true, 3, true, some 7, fun _ => true⟩))) :=
  ⟨rfl, syslog_file_channel_uninit_prior ⟨true, 3, true, some 7, fun _ => true⟩ "log" ⟨some 5, []⟩ 5 rfl⟩

/-- C5: For every call in which `syslog_dev_initialize` returns no handle
or `syslog_channel` fails to bind the handle, `syslog_file_channel`
returns NULL, `g_syslog_file_channel` is NULL on return, and any handle
created for this call has been passed to `syslog_dev_uninitialize`. -/
theorem syslog_file_channel_failure (env : Env) (devpath : String) (s : SysState)
    (hfail : env.devInit = none ∨ ∃ h, env.devInit = some h ∧ env.bindOk h = false) :
    (syslog_file_channel env devpath s).1 = none ∧
    (syslog_file_channel env devpath s).2.1.g_syslog_file_channel = none ∧
    (∀ h, env.devInit = some h →
      Event.devUninitCall h ∈ (syslog_file_channel env devpath s).2.2) := by
  rcases hfail with hnone | ⟨h, hsome, hbind⟩
  · cases hg : s.g_syslog_file_channel <;>
      simp only [syslog_file_channel, hnone, hg] <;>
      exact ⟨by trivial, by trivial, fun h' hh => Option.noConfusion hh⟩
  · cases hg : s.g_syslog_file_channel <;>
      simp only [syslog_file_channel, hsome, hbind, hg] <;>
      refine ⟨by trivial, by trivial, fun h' hh => ?_⟩ <;>
      · cases hh
        simp

/-- Witness for C5 at a concrete input (device initialization fails). -/
theorem syslog_file_channel_failure_witness :
    ((⟨true, 3, true, none, fun _ => true⟩ : Env).devInit = none ∨
      ∃ h, (⟨true, 3, true, none, fun _ => true⟩ : Env).devInit = some h ∧
        (⟨true, 3, true, none, fun _ => true⟩ : Env).bindOk h = false) ∧
    ((syslog_file_channel ⟨true, 3, true, none, fun _ => true⟩ "log" ⟨some 5, []⟩).1 = none ∧
     (syslog_file_channel ⟨true, 3, true, none, fun _ => true⟩ "log" ⟨some 5, []⟩).2.1.g_syslog_file_channel = none ∧
     (∀ h, (⟨true, 3, true, none, fun _ => true⟩ : Env).devInit = some h →
       Event.devUninitCall h ∈
         (syslog_file_channel ⟨true, 3, true, none, fun _ => true⟩ "log" ⟨some 5, []⟩).2.2)) :=
  ⟨Or.inl rfl,
   syslog_file_channel_failure ⟨true, 3, true, none, fun _ => true⟩ "log" ⟨some 5, []⟩ (Or.inl rfl)⟩

/-- C6: On every execution path of `syslog_file_channel`, the trace
contains exactly one `sched_lock` and exactly one `sched_unlock`, and the
last event before returning is the `sched_unlock`: the lock is released
exactly once and the function never returns holding it. -/
theorem syslog_file_channel_unlocks (env : Env) (devpath : String) (s : SysState) :
    (syslog_file_channel env devpath s).2.2.countP isSchedLock = 1 ∧
    (syslog_file_channel env devpath s).2.2.countP isSchedUnlock = 1 ∧
    (syslog_file_channel env devpath s).2.2.getLast? = some .schedUnlock := by
  cases hdev : env.devInit with
  | none =>
      cases hg : s.g_syslog_file_channel <;>
        simp only [syslog_file_channel, hdev, hg] <;>
        exact ⟨rfl, rfl, rfl⟩
  | some h =>
      cases hb : env.bindOk h <;>
        cases hg : s.g_syslog_file_channel <;>
          simp only [syslog_file_channel, hdev, hg, hb] <;>
          exact ⟨rfl, rfl, rfl⟩

/-- C7: Every call passes exactly the flags `O_WRONLY | O_CREAT | O_APPEND`
and exactly the mode `S_IRUSR | S_IWUSR | S_IRGRP | S_IROTH` to
`syslog_dev_initialize`: the trace contains a `devInitCall` event with
`OPEN_FLAGS` and `OPEN_MODE`, every `devInitCall` event carries exactly
those, and the flag and mode sets are exactly {write-only, create, append}
and {owner read, owner write, group read, other read}. -/
theorem syslog_file_channel_open_flags (env : Env) (devpath : String) (s : SysState) :
    (Event.devInitCall devpath OPEN_FLAGS OPEN_MODE) ∈ (syslog_file_channel env devpath s).2.2 ∧
    (∀ p f m, Event.devInitCall p f m ∈ (syslog_file_channel env devpath s).2.2 →
      p = devpath ∧ f = OPEN_FLAGS ∧ m = OPEN_MODE) ∧
    (∀ fl : OpenFlag, fl ∈ OPEN_FLAGS ↔ (fl = .o_wronly ∨ fl = .o_creat ∨ fl = .o_append)) ∧
    (∀ mb : ModeBit, mb ∈ OPEN_MODE ↔
      (mb = .s_irusr ∨ mb = .s_iwusr ∨ mb = .s_irgrp ∨ mb = .s_iroth)) := by
  refine ⟨?_, ?_, fun fl => by cases fl <;> decide, fun mb => by cases mb <;> decide⟩
  · cases hdev : env.devInit with
    | none =>
        cases hg : s.g_syslog_file_channel <;>
          simp [syslog_file_channel, hdev, hg]
    | some h =>
        cases hb : env.bindOk h <;>
          cases hg : s.g_syslog_file_channel <;>
            simp [syslog_file_channel, hdev, hg, hb]
  · intro p f m hmem
    cases hdev : env.devInit with
    | none =>
        cases hg : s.g_syslog_file_channel <;>
          simp only [syslog_file_channel, hdev, hg] at hmem <;>
          simp at hmem <;>
          exact hmem
    | some h =>
        cases hb : env.bindOk h <;>
          cases hg : s.g_syslog_file_channel <;>
            simp only [syslog_file_channel, hdev, hg, hb] at hmem <;>
            simp at hmem <;>
            exact hmem

/-- C8: Every write to the shared pointer `g_syslog_file_channel` occurs
while the scheduler lock is held: from depth 0, every `writeChannel` event
in the trace happens at positive lock depth, between the `sched_lock` and
the matching `sched_unlock`. -/
theorem syslog_file_channel_writes_locked (env : Env) (devpath : String) (s : SysState) :
    lockDepthOk 0 (syslog_file_channel env devpath s).2.2 = true := by
  cases hdev : env.devInit with
  | none =>
      cases hg : s.g_syslog_file_channel <;>
        simp only [syslog_file_channel, hdev, hg] <;> rfl
  | some h =>
      cases hb : env.bindOk h <;>
        cases hg : s.g_syslog_file_channel <;>
          simp only [syslog_file_channel, hdev, hg, hb] <;> rfl

/-- C10: On every return from `syslog_file_channel`, the returned pointer
equals the final value of `g_syslog_file_channel`, and that value is
either NULL or a handle produced by `syslog_dev_initialize` in this call
whose registration via `syslog_channel` succeeded. -/
theorem syslog_file_channel_return_invariant (env : Env) (devpath : String) (s : SysState) :
    (syslog_file_channel env devpath s).1 =
      (syslog_file_channel env devpath s).2.1.g_syslog_file_channel ∧
    ((syslog_file_channel env devpath s).2.1.g_syslog_file_channel = none ∨
      ∃ h, (syslog_file_channel env devpath s).2.1.g_syslog_file_channel = some h ∧
        env.devInit = some h ∧ env.bindOk h = true) := by
  cases hdev : env.devInit with
  | none =>
      cases hg : s.g_syslog_file_channel <;>
        simp only [syslog_file_channel, hdev, hg] <;>
        exact ⟨by trivial, Or.inl (by trivial)⟩
  | some h =>
      cases hb : env.bindOk h with
      | false =>
          cases hg : s.g_syslog_file_channel <;>
            simp only [syslog_file_channel, hdev, hg, hb] <;>
            exact ⟨by trivial, Or.inl (by trivial)⟩
      | true =>
          cases hg : s.g_syslog_file_channel <;>
            simp only [syslog_file_channel, hdev, hg, hb] <;>
            exact ⟨by trivial, Or.inr ⟨h, by trivial, by trivial, hb⟩⟩

end SyslogFileChannel
